import Mathlib

/-!
Shallow embedding of the `macroquad_ldtk` crate (src/load.rs, src/levels.rs,
src/types.rs, src/error.rs) and proofs about its specification claims.

Modelling conventions:
* Rust `i64` is modelled by `Int`; the claims under study never exercise
  64-bit overflow, so no wrap-around is applied.
* Rust `f64` values (`alpha`, `pivot`, `displayOpacity`) are never computed
  with by the crate, only copied; they are modelled opaquely by their bit
  pattern (`F64`), which keeps every definition decidable and executable.
* Rust `Vec<T>` is `List T`; indexing `v[i]` that may panic is modelled with
  `List.get?` inside `Option`, where `none` stands for a panic/abort.
* `HashMap` built by repeated `insert` is modelled as the list of insertions
  in program order together with a last-insertion-wins lookup (`mapLookup`),
  which is exactly the observable behaviour of `HashMap::insert`/`get`.
* `macroquad` texture handles are opaque to the crate: the loader only
  compares the path strings and stores the position index, so the caller's
  texture array is modelled by the list of its path strings.
* `Rect::new` receives integers cast to `f32`; the rectangle is modelled by
  those integer arguments (the casts are value-preserving on the grid sizes
  LDtk produces, and no claim is about `f32` rounding).
* The serde schema types (crate module `parser`, declared in lib.rs; the
  fields are fixed by their uses in load.rs and by the input-format section
  of the spec) are modelled as plain structures.
-/

/-- An IEEE-754 double, modelled opaquely by its bit pattern: the crate only
copies these values, never computes with them. -/
structure F64 where
  bits : Nat
deriving DecidableEq, Repr

/-- Embeds `parser::TileInstance`: fields fixed by `convert_tile_instance`
(src/load.rs): `a` (alpha), `px`, `src` (pixel coordinate arrays), `t`
(tile id). -/
structure TileInstance where
  a : F64
  px : List Int
  src : List Int
  t : Int
deriving DecidableEq, Repr

/-- Embeds `parser::EntityInstance`: fields fixed by `convert_entity_instance`
(src/load.rs): grid coords, pivot, tags, pixel coords, optional world
coords, identifiers, width and height. -/
structure EntityInstance where
  grid : List Int
  pivot : List F64
  tags : List String
  px : List Int
  world_x : Option Int
  world_y : Option Int
  identifier : String
  iid : String
  width : Int
  height : Int
deriving DecidableEq, Repr

/-- Embeds `parser::LayerInstance`: fields fixed by `convert_level` (src/load.rs). -/
structure LayerInstance where
  c_hei : Int
  c_wid : Int
  grid_size : Int
  identifier : String
  tileset_rel_path : Option String
  grid_tiles : List TileInstance
  auto_layer_tiles : List TileInstance
  entity_instances : List EntityInstance
  int_grid_csv : List Int
deriving DecidableEq, Repr

/-- Embeds `parser::Level`: fields fixed by `load_project` and `convert_level`
(src/load.rs). `layer_instances` is optional in the export schema. -/
structure Level where
  world_x : Int
  world_y : Int
  px_wid : Int
  px_hei : Int
  layer_instances : Option (List LayerInstance)
deriving DecidableEq, Repr

/-- Embeds `parser::LayerDefinition`: fields fixed by `convert_layer_def`
(src/load.rs). `layer_definition_type` is the raw type string of the layer
definition. -/
structure LayerDefinition where
  identifier : String
  layer_definition_type : String
  display_opacity : F64
  grid_size : Int
  uid : Int
deriving DecidableEq, Repr

/-- Embeds `parser::TilesetDefinition`: fields fixed by the tileset loop of
`load_project` (src/load.rs). -/
structure TilesetDefinition where
  c_hei : Int
  c_wid : Int
  padding : Int
  spacing : Int
  tile_grid_size : Int
  identifier : String
  uid : Int
  rel_path : Option String
deriving DecidableEq, Repr

/-- Embeds `parser::WorldLayout`: the four world layouts consumed by
`load_project` (src/load.rs). -/
inductive WorldLayout where
  | Free
  | GridVania
  | LinearHorizontal
  | LinearVertical
deriving DecidableEq, Repr

/-- Embeds `parser::Definitions`: the `defs` object holding tileset and layer
definitions, as read by `load_project`. -/
structure Definitions where
  tilesets : List TilesetDefinition
  layers : List LayerDefinition
deriving DecidableEq, Repr

/-- Embeds `parser::LdtkJson`: the decoded project document, as read by
`load_project` (src/load.rs). -/
structure LdtkJson where
  defs : Definitions
  levels : List Level
  world_layout : Option WorldLayout
deriving DecidableEq, Repr

/-- Embeds `types::LdtkTileInstance` (src/types.rs). The two-element Rust arrays
are modelled by pairs. -/
structure LdtkTileInstance where
  alpha : F64
  px_coords : Int × Int
  src_coords : Int × Int
  tile_id : Int
deriving DecidableEq, Repr

/-- Embeds `types::LdtkEntityInstance` (src/types.rs). -/
structure LdtkEntityInstance where
  grid_coords : Int × Int
  pivot : F64 × F64
  tags : List String
  px_coords : Int × Int
  world_coords : Option (Int × Int)
  identifier : String
  iid : String
  height : Int
  width : Int
deriving DecidableEq, Repr

/-- Embeds `types::LdtkLayerInstance` (src/types.rs). -/
structure LdtkLayerInstance where
  grid_height : Int
  grid_width : Int
  grid_size : Int
  layerdef_id : String
  tileset_id : Option String
  tiles : List LdtkTileInstance
  entities : List LdtkEntityInstance
  int_grid_values : List Int
deriving DecidableEq, Repr

/-- Embeds `types::LdtkLevel` (src/types.rs). -/
structure LdtkLevel where
  width : Int
  height : Int
  layers : List LdtkLayerInstance
deriving DecidableEq, Repr

/-- Embeds `types::LdtkLayerType` (src/types.rs). -/
inductive LdtkLayerType where
  | IntGrid
  | Entities
  | Tiles
  | AutoLayer
deriving DecidableEq, Repr

/-- Embeds `types::LdtkLayerDef` (src/types.rs). -/
structure LdtkLayerDef where
  layer_type : LdtkLayerType
  identifier : String
  opacity : F64
  grid_size : Int
  uid : Int
deriving DecidableEq, Repr

/-- Embeds `types::LdtkTileset` (src/types.rs). `texture_index` is the position in
the caller's texture array. -/
structure LdtkTileset where
  texture_index : Nat
  grid_height : Int
  grid_width : Int
  padding : Int
  spacing : Int
  tile_grid_size : Int
  identifier : String
  uid : Int
deriving DecidableEq, Repr

/-- Embeds `error::Error` (src/error.rs). The payloads of `Io` and `SerdeJson` are
irrelevant to the claims and dropped. -/
inductive Error where
  | Io
  | SerdeJson
  | LayerTypeNotFound (layer_type : String)
  | NullWorldType
deriving DecidableEq, Repr

deriving instance DecidableEq for Except

/-- Result of running `load_project` past decoding: success, a returned
`Err`, or a Rust panic (`unwrap`/`expect`/indexing failure). -/
inductive LoadResult (α : Type) where
  | ok : α → LoadResult α
  | err : Error → LoadResult α
  | panic : LoadResult α
deriving DecidableEq, Repr

/-- The insertion list of a `HashMap` build, in program order. -/
abbrev InsertList (K V : Type) := List (K × V)

/-- Embeds `HashMap::get` over the insertion list: the value of the last insertion
with the given key (later insertions overwrite earlier ones). -/
def mapLookup {K V : Type} [DecidableEq K] : InsertList K V → K → Option V
  | [], _ => none
  | (k0, v) :: rest, k =>
    match mapLookup rest k with
    | some r => some r
    | none => if k = k0 then some v else none

/-- Embeds `types::LdtkResources` (src/types.rs): the three `HashMap`s, each as its
insertion list. -/
structure LdtkResources where
  levels : InsertList (Int × Int) LdtkLevel
  tilesets : InsertList String LdtkTileset
  layer_defs : InsertList String LdtkLayerDef
deriving DecidableEq, Repr

/-- Embeds `Iterator::map().collect::<Vec<_>>()` over a fallible (panicking)
element conversion: all elements in order, `none` as soon as one element
conversion panics. -/
def mapOption {α β : Type} (f : α → Option β) : List α → Option (List β)
  | [] => some []
  | x :: xs => do
    let y ← f x
    let ys ← mapOption f xs
    pure (y :: ys)

/-- Embeds `convert::convert_tile_instance` (src/load.rs). The array accesses
`px[0]`, `px[1]`, `src[0]`, `src[1]` panic (here: `none`) when out of
range. -/
def convert_tile_instance (input : TileInstance) : Option LdtkTileInstance := do
  let px0 ← input.px[0]?
  let px1 ← input.px[1]?
  let src0 ← input.src[0]?
  let src1 ← input.src[1]?
  pure { alpha := input.a
         px_coords := (px0, px1)
         src_coords := (src0, src1)
         tile_id := input.t }

/-- Embeds `convert::convert_layer_type` (src/load.rs): the closed string-to-enum
classification. -/
def convert_layer_type (input : String) : Except Error LdtkLayerType :=
  if input = "IntGrid" then .ok .IntGrid
  else if input = "Tiles" then .ok .Tiles
  else if input = "AutoLayer" then .ok .AutoLayer
  else if input = "Entities" then .ok .Entities
  else .error (.LayerTypeNotFound input)

/-- The nested `if let` of `convert::convert_entity_instance`
(src/load.rs): a world-coordinate pair only when both components are
present. -/
def worldCoordsOf (wx wy : Option Int) : Option (Int × Int) :=
  match wx with
  | some x =>
    match wy with
    | some y => some (x, y)
    | none => none
  | none => none

/-- Embeds `convert::convert_entity_instance` (src/load.rs): world coordinates are
kept only when both `world_x` and `world_y` are present; array accesses may
panic. -/
def convert_entity_instance (input : EntityInstance) : Option LdtkEntityInstance := do
  let world_coords := worldCoordsOf input.world_x input.world_y
  let g0 ← input.grid[0]?
  let g1 ← input.grid[1]?
  let p0 ← input.pivot[0]?
  let p1 ← input.pivot[1]?
  let px0 ← input.px[0]?
  let px1 ← input.px[1]?
  pure { grid_coords := (g0, g1)
         pivot := (p0, p1)
         tags := input.tags
         px_coords := (px0, px1)
         world_coords := world_coords
         identifier := input.identifier
         iid := input.iid
         height := input.height
         width := input.width }

/-- Embeds `convert::convert_layer_def` (src/load.rs). -/
def convert_layer_def (input : LayerDefinition) : Except Error LdtkLayerDef := do
  let layer_type ← convert_layer_type input.layer_definition_type
  pure { layer_type := layer_type
         identifier := input.identifier
         opacity := input.display_opacity
         grid_size := input.grid_size
         uid := input.uid }

/-- Body of the per-layer loop of `convert::convert_level` (src/load.rs):
tile source selection (`grid_tiles` if non-empty, else `auto_layer_tiles`)
and field conversion. -/
def convert_layer_instance (l : LayerInstance) : Option LdtkLayerInstance := do
  let source_tiles := if l.grid_tiles.length > 0 then l.grid_tiles else l.auto_layer_tiles
  let tiles ← mapOption convert_tile_instance source_tiles
  let entities ← mapOption convert_entity_instance l.entity_instances
  pure { grid_height := l.c_hei
         grid_width := l.c_wid
         grid_size := l.grid_size
         layerdef_id := l.identifier
         tileset_id := l.tileset_rel_path
         tiles := tiles
         entities := entities
         int_grid_values := l.int_grid_csv }

/-- Embeds `convert::convert_level` (src/load.rs): unwraps `layer_instances`
(panic when absent) and converts each layer instance in order. -/
def convert_level (input : Level) : Option LdtkLevel := do
  let ls ← input.layer_instances
  let layer_insts ← mapOption convert_layer_instance ls
  pure { layers := layer_insts
         width := input.px_wid
         height := input.px_hei }

/-- One iteration of the tileset loop of `load_project` (src/load.rs):
unwraps `rel_path` (panic when absent), finds the position of the matching
texture path (panic when absent), and builds the map entry keyed by the
texture's path string. -/
def convert_tileset (textures : List String) (json_t : TilesetDefinition) :
    Option (String × LdtkTileset) := do
  let rp ← json_t.rel_path
  let tex_i ← textures.findIdx? (fun name => name = rp)
  let key ← textures.get? tex_i
  pure (key, { texture_index := tex_i
               grid_height := json_t.c_hei
               grid_width := json_t.c_wid
               padding := json_t.padding
               spacing := json_t.spacing
               tile_grid_size := json_t.tile_grid_size
               identifier := json_t.identifier
               uid := json_t.uid })

/-- The tileset loop of `load_project` (src/load.rs), producing the
insertion list of the `tilesets` map. -/
def load_tilesets (textures : List String) : List TilesetDefinition →
    Option (InsertList String LdtkTileset)
  | [] => some []
  | t :: ts => do
    let e ← convert_tileset textures t
    let rest ← load_tilesets textures ts
    pure (e :: rest)

/-- The layer-definition loop of `load_project` (src/load.rs): each
definition is converted (the first failure propagates) and inserted keyed
by its identifier. -/
def load_layer_defs : List LayerDefinition →
    Except Error (InsertList String LdtkLayerDef)
  | [] => .ok []
  | l :: ls => do
    let d ← convert_layer_def l
    let rest ← load_layer_defs ls
    pure ((l.identifier, d) :: rest)

/-- The level key chosen by the world-layout `match` of `load_project`
(src/load.rs): declared world coordinates for `Free`/`GridVania`, the
enumeration index for the linear layouts. -/
def levelKey (wl : WorldLayout) (i : Nat) (level : Level) : Int × Int :=
  match wl with
  | .Free | .GridVania => (level.world_x, level.world_y)
  | .LinearHorizontal => ((i : Int), 0)
  | .LinearVertical => (0, (i : Int))

/-- The level loop of `load_project` (src/load.rs) starting at enumeration
index `i`: converts each level (panic propagates) and records the insertion
under its `levelKey`. -/
def loadLevelsGo (wl : WorldLayout) (i : Nat) :
    List Level → Option (InsertList (Int × Int) LdtkLevel)
  | [] => some []
  | l :: ls => do
    let c ← convert_level l
    let rest ← loadLevelsGo wl (i + 1) ls
    pure ((levelKey wl i l, c) :: rest)

/-- Embeds `load::load_project` (src/load.rs) after the decode step: the tileset
loop (may panic), the layer-definition loop (may fail), the null
world-layout check, then the level loop (may panic), in the source's
order. Decoding itself and the I/O are outside the embedding; `textures`
is the list of the caller's texture path strings. -/
def load_project (json : LdtkJson) (textures : List String) :
    LoadResult LdtkResources :=
  match load_tilesets textures json.defs.tilesets with
  | none => .panic
  | some tilesets =>
    match load_layer_defs json.defs.layers with
    | .error e => .err e
    | .ok layer_defs =>
      match json.world_layout with
      | none => .err .NullWorldType
      | some wl =>
        match loadLevelsGo wl 0 json.levels with
        | none => .panic
        | some levels => .ok { levels := levels, tilesets := tilesets, layer_defs := layer_defs }

/-- Embeds `LdtkResources::get_entities` (src/levels.rs): looks the level up
(`expect` panics when absent, modelled by `none`) and pushes every layer's
entities in layer order. -/
def get_entities (res : LdtkResources) (level_coord : Int × Int) :
    Option (List LdtkEntityInstance) :=
  (mapLookup res.levels level_coord).map
    (fun level => level.layers.foldl (fun acc l => acc ++ l.entities) [])

/-- A collision rectangle: the four integer arguments the code passes to
`Rect::new` (they are cast to `f32` there; no claim concerns the cast). -/
structure CollisionRect where
  x : Int
  y : Int
  w : Int
  h : Int
deriving DecidableEq, Repr

/-- The scan loop of `LdtkLevel::generate_collision_rects` (src/levels.rs)
from flat index `i` on: skips non-matching cells and emits one rectangle
per matching cell. Rust `%` and `/` on `i64` are truncated (`tmod`/`tdiv`)
and panic on a zero divisor (modelled by `none`). -/
def collisionRectsGo (gw gs target : Int) : Nat → List Int → Option (List CollisionRect)
  | _, [] => some []
  | i, v :: vs =>
    if v ≠ target then collisionRectsGo gw gs target (i + 1) vs
    else if gw = 0 then none
    else do
      let rest ← collisionRectsGo gw gs target (i + 1) vs
      pure ({ x := Int.tmod (i : Int) gw * gs
              y := Int.tdiv (i : Int) gw * gs
              w := gs
              h := gs } :: rest)

/-- Embeds `LdtkLevel::generate_collision_rects` (src/levels.rs): indexes the
layer (panic when out of range) and scans its flat int-grid. -/
def generate_collision_rects (level : LdtkLevel) (layer_idx : Nat) (target_value : Int) :
    Option (List CollisionRect) := do
  let layer ← level.layers.get? layer_idx
  collisionRectsGo layer.grid_width layer.grid_size target_value 0 layer.int_grid_values

/-- Transcription of the claim's description of collision-rectangle
generation (spec, Testable Properties): one unit rectangle per cell equal
to the target, at `(col*grid_size, row*grid_size)` with
`col = index mod grid_width`, `row = index div grid_width`, in row-major
scan order. -/
def collisionRectsSpec (gw gs target : Int) (vals : List Int) : List CollisionRect :=
  (vals.enum.filter (fun p => p.2 = target)).map
    (fun p => { x := ((p.1 : Int) % gw) * gs
                y := ((p.1 : Int) / gw) * gs
                w := gs
                h := gs })

theorem collisionRectsGo_eq_spec (gw gs target : Int) (hgw : 0 < gw) (vals : List Int) :
    ∀ i : Nat,
      collisionRectsGo gw gs target i vals =
        some (((List.enumFrom i vals).filter (fun p => p.2 = target)).map
          (fun p => { x := ((p.1 : Int) % gw) * gs
                      y := ((p.1 : Int) / gw) * gs
                      w := gs
                      h := gs })) := by
  induction vals with
  | nil => intro i; simp [collisionRectsGo]
  | cons v vs ih =>
    intro i
    by_cases h : v = target
    · simp [collisionRectsGo, h, ne_of_gt hgw, ih (i + 1), List.enumFrom_cons,
        Int.tmod_eq_emod (Int.ofNat_nonneg i) (le_of_lt hgw),
        Int.tdiv_eq_ediv (Int.ofNat_nonneg i) (le_of_lt hgw)]
    · simp [collisionRectsGo, h, ih (i + 1), List.enumFrom_cons]

/-- C1: for a layer index naming a layer of the level whose grid width is
positive, `generate_collision_rects` returns exactly one unit rectangle per
int-grid cell equal to the target, at `(col*grid_size, row*grid_size)` with
`col = index mod grid_width` and `row = index div grid_width`, in row-major
scan order, and the empty list when no cell equals the target. -/
theorem C1_collision_rects (level : LdtkLevel) (layer_idx : Nat) (target : Int)
    (layer : LdtkLayerInstance) (hl : level.layers.get? layer_idx = some layer)
    (hgw : 0 < layer.grid_width) :
    generate_collision_rects level layer_idx target =
        some (collisionRectsSpec layer.grid_width layer.grid_size target layer.int_grid_values)
      ∧ ((∀ v ∈ layer.int_grid_values, v ≠ target) →
          generate_collision_rects level layer_idx target = some []) := by
  have he : layer.int_grid_values.enum = List.enumFrom 0 layer.int_grid_values := rfl
  have hmain : generate_collision_rects level layer_idx target =
      some (collisionRectsSpec layer.grid_width layer.grid_size target layer.int_grid_values) := by
    rw [generate_collision_rects, hl, collisionRectsSpec, he]
    simp [collisionRectsGo_eq_spec layer.grid_width layer.grid_size target hgw
      layer.int_grid_values 0]
  refine ⟨hmain, fun hnone => ?_⟩
  have hfil : layer.int_grid_values.enum.filter (fun p => decide (p.2 = target)) = [] := by
    rw [List.filter_eq_nil_iff]
    rintro ⟨i, v⟩ hm
    obtain ⟨-, -, hv⟩ := List.mem_enumFrom hm
    simp only [decide_eq_true_eq]
    exact hnone v (hv ▸ List.getElem_mem _)
  rw [hmain]
  simp [collisionRectsSpec, hfil]

/-- The int-grid layer of the crate's own `rect_generation` test
(src/levels.rs). -/
def cLayerC1 : LdtkLayerInstance :=
  { grid_height := 3
    grid_width := 4
    grid_size := 16
    layerdef_id := "No"
    tileset_id := none
    tiles := []
    entities := []
    int_grid_values := [2, 0, 3, 0, 1, 2, 1, 0, 1, 1, 0, 1] }

/-- The level of the crate's own `rect_generation` test (src/levels.rs). -/
def cLevelC1 : LdtkLevel := { width := 4, height := 3, layers := [cLayerC1] }

theorem C1_collision_rects_witness :
    cLevelC1.layers.get? 0 = some cLayerC1 ∧ 0 < cLayerC1.grid_width ∧
    generate_collision_rects cLevelC1 0 1 =
      some (collisionRectsSpec cLayerC1.grid_width cLayerC1.grid_size 1 cLayerC1.int_grid_values) :=
  ⟨rfl, by decide, (C1_collision_rects cLevelC1 0 1 cLayerC1 rfl (by decide)).1⟩

theorem convert_layer_type_recognized (s : String) :
    (s = "IntGrid" ∨ s = "Tiles" ∨ s = "AutoLayer" ∨ s = "Entities") ↔
      ∃ t, convert_layer_type s = .ok t := by
  unfold convert_layer_type
  by_cases h1 : s = "IntGrid" <;> by_cases h2 : s = "Tiles" <;>
    by_cases h3 : s = "AutoLayer" <;> by_cases h4 : s = "Entities" <;>
    simp [h1, h2, h3, h4]

theorem convert_layer_type_unrecognized (s : String)
    (h : ¬ (s = "IntGrid" ∨ s = "Tiles" ∨ s = "AutoLayer" ∨ s = "Entities")) :
    convert_layer_type s = .error (.LayerTypeNotFound s) := by
  push_neg at h
  obtain ⟨h1, h2, h3, h4⟩ := h
  simp [convert_layer_type, h1, h2, h3, h4]

theorem convert_layer_type_not_ok_eq (s : String)
    (h : ∀ t, convert_layer_type s ≠ .ok t) :
    convert_layer_type s = .error (.LayerTypeNotFound s) := by
  refine convert_layer_type_unrecognized s (fun hr => ?_)
  obtain ⟨t, ht⟩ := (convert_layer_type_recognized s).mp hr
  exact h t ht

theorem convert_layer_def_ok_of_type_ok (l : LayerDefinition) (t : LdtkLayerType)
    (h : convert_layer_type l.layer_definition_type = .ok t) :
    convert_layer_def l = .ok
      { layer_type := t
        identifier := l.identifier
        opacity := l.display_opacity
        grid_size := l.grid_size
        uid := l.uid } := by
  simp [convert_layer_def, h]

theorem except_ok_bind {ε α β : Type} (a : α) (f : α → Except ε β) :
    (Except.ok a >>= f) = f a := rfl

theorem except_error_bind {ε α β : Type} (e : ε) (f : α → Except ε β) :
    ((Except.error e : Except ε α) >>= f) = Except.error e := rfl

theorem load_layer_defs_first_error (pre : List LayerDefinition) (d : LayerDefinition)
    (post : List LayerDefinition)
    (hpre : ∀ p ∈ pre, ∃ t, convert_layer_type p.layer_definition_type = .ok t)
    (hd : ∀ t, convert_layer_type d.layer_definition_type ≠ .ok t) :
    load_layer_defs (pre ++ d :: post) = .error (.LayerTypeNotFound d.layer_definition_type) := by
  induction pre with
  | nil =>
    have herr := convert_layer_type_not_ok_eq d.layer_definition_type hd
    simp only [load_layer_defs, convert_layer_def, herr]
    rfl
  | cons p pre ih =>
    obtain ⟨t, ht⟩ := hpre p (List.mem_cons_self p pre)
    have hrest := ih (fun q hq => hpre q (List.mem_cons_of_mem p hq))
    simp only [load_layer_defs, convert_layer_def_ok_of_type_ok p t ht, except_ok_bind,
      List.append_eq, hrest, except_error_bind]

theorem mapOption_isSome {α β : Type} (f : α → Option β) (xs : List α)
    (h : ∀ x ∈ xs, (f x).isSome) : (mapOption f xs).isSome := by
  induction xs with
  | nil => simp [mapOption]
  | cons a l ih =>
    obtain ⟨b, hb⟩ := Option.isSome_iff_exists.mp (h a (List.mem_cons_self a l))
    obtain ⟨bs, hbs⟩ :=
      Option.isSome_iff_exists.mp (ih (fun x hx => h x (List.mem_cons_of_mem a hx)))
    simp [mapOption, hb, hbs]

theorem mapOption_mem {α β : Type} (f : α → Option β) (xs : List α) (ys : List β)
    (h : mapOption f xs = some ys) : ∀ y ∈ ys, ∃ x ∈ xs, f x = some y := by
  induction xs generalizing ys with
  | nil =>
    simp only [mapOption] at h
    cases h
    intro y hy
    cases hy
  | cons a l ih =>
    simp only [mapOption] at h
    cases hfa : f a with
    | none => rw [hfa] at h; cases h
    | some b =>
      rw [hfa] at h
      cases hml : mapOption f l with
      | none => rw [hml] at h; cases h
      | some bs =>
        rw [hml] at h
        have hys : b :: bs = ys := by simpa using h
        intro y hy
        rw [← hys] at hy
        rcases List.mem_cons.mp hy with hyb | hybs
        · exact ⟨a, List.mem_cons_self a l, hyb ▸ hfa⟩
        · obtain ⟨x, hx, hfx⟩ := ih bs hml y hybs
          exact ⟨x, List.mem_cons_of_mem a hx, hfx⟩

theorem load_project_ok_inv (json : LdtkJson) (textures : List String) (res : LdtkResources)
    (h : load_project json textures = .ok res) :
    ∃ ts lds wl es,
      load_tilesets textures json.defs.tilesets = some ts ∧
      load_layer_defs json.defs.layers = .ok lds ∧
      json.world_layout = some wl ∧
      loadLevelsGo wl 0 json.levels = some es ∧
      res = ⟨es, ts, lds⟩ := by
  unfold load_project at h
  split at h
  · cases h
  next ts hts =>
    split at h
    · cases h
    next lds hld =>
      split at h
      · cases h
      next wl hwl =>
        split at h
        · cases h
        next es hes =>
          cases h
          exact ⟨ts, lds, wl, es, hts, hld, hwl, hes, rfl⟩

/-- A document with no world layout and an unrecognized layer-definition
type. -/
def cJsonC3 : LdtkJson :=
  { defs :=
      { tilesets := []
        layers := [{ identifier := "L"
                     layer_definition_type := "Foo"
                     display_opacity := ⟨0⟩
                     grid_size := 16
                     uid := 1 }] }
    levels := []
    world_layout := none }

/-- C3 counterexample: a document that declares no world-layout kind but
contains an unrecognized layer type fails with the unknown-layer-type
error, not with `NullWorldType` — the layer-definition loop runs before
the world-layout check. -/
theorem C3_counterexample :
    cJsonC3.world_layout = none ∧
    load_project cJsonC3 [] = .err (.LayerTypeNotFound "Foo") ∧
    load_project cJsonC3 [] ≠ .err .NullWorldType := by decide

/-- C3 (amended): a document that declares no world-layout kind never
loads successfully, and whenever its tileset resolution and
layer-definition conversion get past their own failure modes, the load
fails with exactly the `NullWorldType` error. -/
theorem C3_null_world_layout (json : LdtkJson) (textures : List String)
    (hwl : json.world_layout = none) :
    (∀ ts, load_tilesets textures json.defs.tilesets = some ts →
      ∀ lds, load_layer_defs json.defs.layers = .ok lds →
        load_project json textures = .err .NullWorldType)
    ∧ ∀ res, load_project json textures ≠ .ok res := by
  constructor
  · intro ts hts lds hlds
    simp [load_project, hts, hlds, hwl]
  · intro res hok
    obtain ⟨ts, lds, wl, es, -, -, hwl2, -, -⟩ := load_project_ok_inv json textures res hok
    rw [hwl] at hwl2
    cases hwl2

/-- A document with no world layout and otherwise empty content. -/
def cJsonC3b : LdtkJson :=
  { defs := { tilesets := [], layers := [] }, levels := [], world_layout := none }

theorem C3_null_world_layout_witness :
    cJsonC3b.world_layout = none ∧
    load_project cJsonC3b [] = .err .NullWorldType ∧
    load_project cJsonC3b [] ≠ .ok { levels := [], tilesets := [], layer_defs := [] } :=
  ⟨rfl, (C3_null_world_layout cJsonC3b [] rfl).1 [] rfl [] rfl,
    (C3_null_world_layout cJsonC3b [] rfl).2 { levels := [], tilesets := [], layer_defs := [] }⟩

/-- A layer definition with the unrecognized type string "Foo". -/
def cDefFoo : LayerDefinition :=
  { identifier := "A"
    layer_definition_type := "Foo"
    display_opacity := ⟨0⟩
    grid_size := 16
    uid := 1 }

/-- A layer definition with the unrecognized type string "Bar". -/
def cDefBar : LayerDefinition :=
  { identifier := "B"
    layer_definition_type := "Bar"
    display_opacity := ⟨0⟩
    grid_size := 16
    uid := 2 }

/-- A document containing two layer definitions with unrecognized types. -/
def cJsonC4 : LdtkJson :=
  { defs := { tilesets := [], layers := [cDefFoo, cDefBar] }
    levels := []
    world_layout := some .Free }

/-- C4 counterexample: the document contains the layer definition `cDefBar`
whose type string "Bar" is unrecognized, yet `load_project` does not fail
with the error carrying "Bar" — it carries "Foo", the type string of the
first unrecognized definition. -/
theorem C4_counterexample :
    cDefBar ∈ cJsonC4.defs.layers ∧
    convert_layer_type cDefBar.layer_definition_type = .error (.LayerTypeNotFound "Bar") ∧
    load_project cJsonC4 [] = .err (.LayerTypeNotFound "Foo") ∧
    load_project cJsonC4 [] ≠ .err (.LayerTypeNotFound "Bar") := by decide

/-- C4 (amended): layer-type classification maps exactly the four strings
IntGrid, Tiles, AutoLayer, Entities into the closed `LdtkLayerType` set and
every other string to the unknown-layer-type error carrying that string;
and provided tileset resolution succeeds, `load_project` fails with the
unknown-layer-type error carrying the type string of the first unrecognized
layer definition in document order. -/
theorem C4_unknown_layer_type (s : String) (json : LdtkJson) (textures : List String)
    (ts : InsertList String LdtkTileset) (pre post : List LayerDefinition)
    (d : LayerDefinition)
    (hts : load_tilesets textures json.defs.tilesets = some ts)
    (hsplit : json.defs.layers = pre ++ d :: post)
    (hpre : ∀ p ∈ pre, ∃ t, convert_layer_type p.layer_definition_type = .ok t)
    (hd : ∀ t, convert_layer_type d.layer_definition_type ≠ .ok t) :
    ((s = "IntGrid" ∨ s = "Tiles" ∨ s = "AutoLayer" ∨ s = "Entities") ↔
        ∃ t, convert_layer_type s = .ok t)
    ∧ (¬ (s = "IntGrid" ∨ s = "Tiles" ∨ s = "AutoLayer" ∨ s = "Entities") →
        convert_layer_type s = .error (.LayerTypeNotFound s))
    ∧ load_project json textures = .err (.LayerTypeNotFound d.layer_definition_type) := by
  refine ⟨convert_layer_type_recognized s, convert_layer_type_unrecognized s, ?_⟩
  have herr : load_layer_defs json.defs.layers =
      .error (.LayerTypeNotFound d.layer_definition_type) := by
    rw [hsplit]
    exact load_layer_defs_first_error pre d post hpre hd
  simp [load_project, hts, herr]

theorem C4_unknown_layer_type_witness :
    load_tilesets [] cJsonC4.defs.tilesets = some [] ∧
    cJsonC4.defs.layers = [] ++ cDefFoo :: [cDefBar] ∧
    load_project cJsonC4 [] = .err (.LayerTypeNotFound cDefFoo.layer_definition_type) :=
  ⟨rfl, rfl,
    (C4_unknown_layer_type "Foo" cJsonC4 [] [] [] [cDefBar] cDefFoo rfl rfl
      (by intro p hp; cases hp)
      (by
        have h0 : convert_layer_type cDefFoo.layer_definition_type =
            .error (.LayerTypeNotFound "Foo") := by decide
        intro t ht
        rw [h0] at ht
        cases ht)).2.2⟩

theorem worldCoordsOf_isSome (wx wy : Option Int) :
    (worldCoordsOf wx wy).isSome ↔ wx.isSome ∧ wy.isSome := by
  cases wx <;> cases wy <;> simp [worldCoordsOf]

theorem convert_entity_instance_eq (e : EntityInstance) (g0 g1 px0 px1 : Int) (p0 p1 : F64)
    (hg0 : e.grid[0]? = some g0) (hg1 : e.grid[1]? = some g1)
    (hp0 : e.pivot[0]? = some p0) (hp1 : e.pivot[1]? = some p1)
    (hpx0 : e.px[0]? = some px0) (hpx1 : e.px[1]? = some px1) :
    convert_entity_instance e = some
      { grid_coords := (g0, g1)
        pivot := (p0, p1)
        tags := e.tags
        px_coords := (px0, px1)
        world_coords := worldCoordsOf e.world_x e.world_y
        identifier := e.identifier
        iid := e.iid
        height := e.height
        width := e.width } := by
  simp [convert_entity_instance, hg0, hg1, hp0, hp1, hpx0, hpx1]

/-- C5: entity conversion yields world coordinates iff both `world_x` and
`world_y` are present in the input (partial presence yields `none`), the
pair being the two inputs verbatim, and every other field (grid
coordinates, pivot, tags, pixel coordinates, identifiers, width, height)
is copied verbatim from the input. -/
theorem C5_entity_conversion (e : EntityInstance) (out : LdtkEntityInstance)
    (h : convert_entity_instance e = some out) :
    (out.world_coords.isSome ↔ e.world_x.isSome ∧ e.world_y.isSome)
    ∧ (∀ wx wy, e.world_x = some wx → e.world_y = some wy →
        out.world_coords = some (wx, wy))
    ∧ (e.world_x = none ∨ e.world_y = none → out.world_coords = none)
    ∧ out.tags = e.tags ∧ out.identifier = e.identifier ∧ out.iid = e.iid
    ∧ out.width = e.width ∧ out.height = e.height
    ∧ e.grid[0]? = some out.grid_coords.1 ∧ e.grid[1]? = some out.grid_coords.2
    ∧ e.pivot[0]? = some out.pivot.1 ∧ e.pivot[1]? = some out.pivot.2
    ∧ e.px[0]? = some out.px_coords.1 ∧ e.px[1]? = some out.px_coords.2 := by
  cases hg0 : e.grid[0]? with
  | none => simp [convert_entity_instance, hg0] at h
  | some g0 =>
  cases hg1 : e.grid[1]? with
  | none => simp [convert_entity_instance, hg0, hg1] at h
  | some g1 =>
  cases hp0 : e.pivot[0]? with
  | none => simp [convert_entity_instance, hg0, hg1, hp0] at h
  | some p0 =>
  cases hp1 : e.pivot[1]? with
  | none => simp [convert_entity_instance, hg0, hg1, hp0, hp1] at h
  | some p1 =>
  cases hpx0 : e.px[0]? with
  | none => simp [convert_entity_instance, hg0, hg1, hp0, hp1, hpx0] at h
  | some px0 =>
  cases hpx1 : e.px[1]? with
  | none => simp [convert_entity_instance, hg0, hg1, hp0, hp1, hpx0, hpx1] at h
  | some px1 =>
  have hchar := convert_entity_instance_eq e g0 g1 px0 px1 p0 p1 hg0 hg1 hp0 hp1 hpx0 hpx1
  rw [hchar] at h
  obtain rfl := Option.some.inj h
  refine ⟨worldCoordsOf_isSome e.world_x e.world_y, ?_, ?_, rfl, rfl, rfl, rfl, rfl,
    rfl, rfl, rfl, rfl, rfl, rfl⟩
  · intro wx wy hwx hwy
    simp [worldCoordsOf, hwx, hwy]
  · rintro (hwx | hwy)
    · simp [worldCoordsOf, hwx]
    · cases hx : e.world_x <;> simp [worldCoordsOf, hx, hwy]

/-- A concrete entity instance with both world coordinates present. -/
def cEntityC5 : EntityInstance :=
  { grid := [3, 4]
    pivot := [⟨0⟩, ⟨1⟩]
    tags := ["enemy"]
    px := [48, 64]
    world_x := some 100
    world_y := some 200
    identifier := "Mob"
    iid := "uid-1"
    width := 16
    height := 16 }

/-- The conversion of `cEntityC5`. -/
def cEntityOutC5 : LdtkEntityInstance :=
  { grid_coords := (3, 4)
    pivot := (⟨0⟩, ⟨1⟩)
    tags := ["enemy"]
    px_coords := (48, 64)
    world_coords := some (100, 200)
    identifier := "Mob"
    iid := "uid-1"
    height := 16
    width := 16 }

theorem C5_entity_conversion_witness :
    convert_entity_instance cEntityC5 = some cEntityOutC5 ∧
    (cEntityOutC5.world_coords.isSome ↔ cEntityC5.world_x.isSome ∧ cEntityC5.world_y.isSome) ∧
    cEntityOutC5.tags = cEntityC5.tags :=
  ⟨by decide, (C5_entity_conversion cEntityC5 cEntityOutC5 (by decide)).1,
    (C5_entity_conversion cEntityC5 cEntityOutC5 (by decide)).2.2.2.1⟩

/-- C6: when the manually-placed tile list (`grid_tiles`) is non-empty, the
converted layer's tiles are the conversions of the manual list only
(auto-placed tiles are dropped); only when the manual list is empty are the
auto-placed tiles (`auto_layer_tiles`) converted instead. -/
theorem C6_tile_source (l : LayerInstance) (out : LdtkLayerInstance)
    (h : convert_layer_instance l = some out) :
    (l.grid_tiles.length > 0 →
        mapOption convert_tile_instance l.grid_tiles = some out.tiles)
    ∧ (l.grid_tiles.length = 0 →
        mapOption convert_tile_instance l.auto_layer_tiles = some out.tiles) := by
  unfold convert_layer_instance at h
  by_cases hg : l.grid_tiles.length > 0
  · rw [if_pos hg] at h
    cases hts : mapOption convert_tile_instance l.grid_tiles with
    | none => simp [hts] at h
    | some tiles =>
      cases hes : mapOption convert_entity_instance l.entity_instances with
      | none => simp [hts, hes] at h
      | some es =>
        simp only [hts, hes, Option.some_bind] at h
        obtain rfl := Option.some.inj h
        exact ⟨fun _ => rfl, fun h0 => absurd h0 (Nat.pos_iff_ne_zero.mp hg)⟩
  · rw [if_neg hg] at h
    cases hts : mapOption convert_tile_instance l.auto_layer_tiles with
    | none => simp [hts] at h
    | some tiles =>
      cases hes : mapOption convert_entity_instance l.entity_instances with
      | none => simp [hts, hes] at h
      | some es =>
        simp only [hts, hes, Option.some_bind] at h
        obtain rfl := Option.some.inj h
        exact ⟨fun hpos => absurd hpos hg, fun _ => rfl⟩

/-- A layer instance with both a non-empty manual and a non-empty auto tile
list. -/
def cLayerInstC6 : LayerInstance :=
  { c_hei := 1
    c_wid := 1
    grid_size := 16
    identifier := "Ground"
    tileset_rel_path := some "tiles.png"
    grid_tiles := [{ a := ⟨1⟩, px := [0, 0], src := [16, 0], t := 1 }]
    auto_layer_tiles := [{ a := ⟨1⟩, px := [16, 0], src := [32, 0], t := 2 }]
    entity_instances := []
    int_grid_csv := [] }

/-- The conversion of `cLayerInstC6`: only the manual tile survives. -/
def cLayerOutC6 : LdtkLayerInstance :=
  { grid_height := 1
    grid_width := 1
    grid_size := 16
    layerdef_id := "Ground"
    tileset_id := some "tiles.png"
    tiles := [{ alpha := ⟨1⟩, px_coords := (0, 0), src_coords := (16, 0), tile_id := 1 }]
    entities := []
    int_grid_values := [] }

theorem C6_tile_source_witness :
    convert_layer_instance cLayerInstC6 = some cLayerOutC6 ∧
    cLayerInstC6.grid_tiles.length > 0 ∧ cLayerInstC6.auto_layer_tiles.length > 0 ∧
    mapOption convert_tile_instance cLayerInstC6.grid_tiles = some cLayerOutC6.tiles :=
  ⟨by decide, by decide, by decide,
    (C6_tile_source cLayerInstC6 cLayerOutC6 (by decide)).1 (by decide)⟩

/-- Well-formed decoded tile record: the two pixel-coordinate arrays have
the two entries the schema promises. -/
def TileWF (t : TileInstance) : Prop := 2 ≤ t.px.length ∧ 2 ≤ t.src.length

/-- Well-formed decoded entity record: coordinate and pivot arrays have the
two entries the schema promises. -/
def EntityWF (e : EntityInstance) : Prop :=
  2 ≤ e.grid.length ∧ 2 ≤ e.pivot.length ∧ 2 ≤ e.px.length

/-- Well-formed decoded layer instance: all contained tile and entity
records are well-formed. -/
def LayerInstanceWF (l : LayerInstance) : Prop :=
  (∀ t ∈ l.grid_tiles, TileWF t) ∧ (∀ t ∈ l.auto_layer_tiles, TileWF t) ∧
    (∀ e ∈ l.entity_instances, EntityWF e)

/-- Well-formed decoded level: the layer-instance list is present and all
its layer instances are well-formed. -/
def LevelWF (lvl : Level) : Prop :=
  ∃ ls, lvl.layer_instances = some ls ∧ ∀ li ∈ ls, LayerInstanceWF li

theorem convert_tile_instance_isSome (t : TileInstance) (h : TileWF t) :
    (convert_tile_instance t).isSome := by
  obtain ⟨h1, h2⟩ := h
  have ha0 := List.get?_eq_get (show 0 < t.px.length by omega)
  have ha1 := List.get?_eq_get (show 1 < t.px.length by omega)
  have hb0 := List.get?_eq_get (show 0 < t.src.length by omega)
  have hb1 := List.get?_eq_get (show 1 < t.src.length by omega)
  simp only [List.get?_eq_getElem?] at ha0 ha1 hb0 hb1
  simp [convert_tile_instance, ha0, ha1, hb0, hb1]

theorem convert_entity_instance_isSome (e : EntityInstance) (h : EntityWF e) :
    (convert_entity_instance e).isSome := by
  obtain ⟨h1, h2, h3⟩ := h
  have ha0 := List.get?_eq_get (show 0 < e.grid.length by omega)
  have ha1 := List.get?_eq_get (show 1 < e.grid.length by omega)
  have hb0 := List.get?_eq_get (show 0 < e.pivot.length by omega)
  have hb1 := List.get?_eq_get (show 1 < e.pivot.length by omega)
  have hc0 := List.get?_eq_get (show 0 < e.px.length by omega)
  have hc1 := List.get?_eq_get (show 1 < e.px.length by omega)
  simp only [List.get?_eq_getElem?] at ha0 ha1 hb0 hb1 hc0 hc1
  simp [convert_entity_instance, ha0, ha1, hb0, hb1, hc0, hc1]

theorem convert_layer_instance_isSome (l : LayerInstance) (h : LayerInstanceWF l) :
    (convert_layer_instance l).isSome := by
  obtain ⟨hg, ha, he⟩ := h
  have htiles : (mapOption convert_tile_instance
      (if l.grid_tiles.length > 0 then l.grid_tiles else l.auto_layer_tiles)).isSome := by
    by_cases hn : l.grid_tiles.length > 0
    · rw [if_pos hn]
      exact mapOption_isSome _ _ (fun t ht => convert_tile_instance_isSome t (hg t ht))
    · rw [if_neg hn]
      exact mapOption_isSome _ _ (fun t ht => convert_tile_instance_isSome t (ha t ht))
  obtain ⟨tiles, hts⟩ := Option.isSome_iff_exists.mp htiles
  obtain ⟨es, hes⟩ := Option.isSome_iff_exists.mp
    (mapOption_isSome _ _ (fun x hx => convert_entity_instance_isSome x (he x hx)))
  simp [convert_layer_instance, hts, hes]

theorem convert_level_isSome (lvl : Level) (h : LevelWF lvl) :
    (convert_level lvl).isSome := by
  obtain ⟨ls, hls, hwf⟩ := h
  obtain ⟨outs, houts⟩ := Option.isSome_iff_exists.mp
    (mapOption_isSome _ ls (fun li hli => convert_layer_instance_isSome li (hwf li hli)))
  simp [convert_level, hls, houts]

/-- C9: on well-formed decoded input, tile conversion, entity conversion
and level conversion are total (they return a value, never a panic and
never an error — their result type has no error case at all); among the
converters only layer-type classification can fail, and a layer-definition
conversion fails exactly when its type string fails classification. -/
theorem C9_converters_total (t : TileInstance) (e : EntityInstance) (lvl : Level)
    (ht : TileWF t) (he : EntityWF e) (hl : LevelWF lvl) :
    (convert_tile_instance t).isSome ∧ (convert_entity_instance e).isSome ∧
    (convert_level lvl).isSome ∧
    ∀ d : LayerDefinition,
      (∃ er, convert_layer_def d = .error er) ↔
        ∃ er, convert_layer_type d.layer_definition_type = .error er := by
  refine ⟨convert_tile_instance_isSome t ht, convert_entity_instance_isSome e he,
    convert_level_isSome lvl hl, fun d => ?_⟩
  cases hct : convert_layer_type d.layer_definition_type with
  | ok lt =>
    constructor
    · rintro ⟨er, her⟩
      rw [convert_layer_def_ok_of_type_ok d lt hct] at her
      cases her
    · rintro ⟨er, her⟩
      cases her
  | error er =>
    constructor
    · intro _
      exact ⟨er, rfl⟩
    · intro _
      refine ⟨er, ?_⟩
      simp [convert_layer_def, hct]

/-- A well-formed tile record. -/
def cTileC9 : TileInstance := { a := ⟨0⟩, px := [0, 0], src := [0, 0], t := 0 }

/-- A well-formed entity record. -/
def cEntityC9 : EntityInstance :=
  { grid := [0, 0]
    pivot := [⟨0⟩, ⟨0⟩]
    tags := []
    px := [0, 0]
    world_x := none
    world_y := none
    identifier := "E"
    iid := "i"
    width := 0
    height := 0 }

/-- A well-formed level record with an empty layer-instance list. -/
def cLevelC9 : Level :=
  { world_x := 0, world_y := 0, px_wid := 0, px_hei := 0, layer_instances := some [] }

theorem C9_converters_total_witness :
    (convert_tile_instance cTileC9).isSome ∧ (convert_entity_instance cEntityC9).isSome ∧
    (convert_level cLevelC9).isSome :=
  have h := C9_converters_total cTileC9 cEntityC9 cLevelC9 (by constructor <;> decide)
    (by refine ⟨?_, ?_, ?_⟩ <;> decide) ⟨[], rfl, by intro li hli; cases hli⟩
  ⟨h.1, h.2.1, h.2.2.1⟩

/-- C7: when the coordinate names a level, `get_entities` returns the
concatenation of the entity lists of all the level's layers, in layer
order then per-layer insertion order. The stability across repeated calls
and absence of mutation are structural here: `get_entities` is a pure
function of the resources value (the Rust method takes `&self` and only
reads). -/
theorem C7_get_entities (res : LdtkResources) (coord : Int × Int) (lvl : LdtkLevel)
    (h : mapLookup res.levels coord = some lvl) :
    get_entities res coord = some ((lvl.layers.map (fun l => l.entities)).flatten) := by
  have hfold : ∀ (ls : List LdtkLayerInstance) (acc : List LdtkEntityInstance),
      ls.foldl (fun a l => a ++ l.entities) acc =
        acc ++ (ls.map (fun l => l.entities)).flatten := by
    intro ls
    induction ls with
    | nil => intro acc; simp
    | cons l ls ih => intro acc; simp [ih]
  simp [get_entities, h, hfold]

/-- An entity instance used in the `get_entities` witness. -/
def cEntA : LdtkEntityInstance :=
  { grid_coords := (0, 0)
    pivot := (⟨0⟩, ⟨0⟩)
    tags := []
    px_coords := (0, 0)
    world_coords := none
    identifier := "A"
    iid := "a"
    height := 8
    width := 8 }

/-- A second entity instance used in the `get_entities` witness. -/
def cEntB : LdtkEntityInstance :=
  { cEntA with identifier := "B", iid := "b" }

/-- A level with two layers holding entities `[cEntA]` and `[cEntB]`. -/
def cLevelC7 : LdtkLevel :=
  { width := 16
    height := 16
    layers :=
      [{ cLayerC1 with entities := [cEntA] },
       { cLayerC1 with entities := [cEntB] }] }

/-- Resources holding `cLevelC7` at coordinate (0, 0). -/
def cResC7 : LdtkResources :=
  { levels := [((0, 0), cLevelC7)], tilesets := [], layer_defs := [] }

theorem C7_get_entities_witness :
    mapLookup cResC7.levels (0, 0) = some cLevelC7 ∧
    get_entities cResC7 (0, 0) = some ((cLevelC7.layers.map (fun l => l.entities)).flatten) :=
  ⟨by decide, C7_get_entities cResC7 (0, 0) cLevelC7 (by decide)⟩

theorem mapLookup_eq_none {K V : Type} [DecidableEq K] (m : InsertList K V) (k : K)
    (h : ∀ p ∈ m, p.1 ≠ k) : mapLookup m k = none := by
  induction m with
  | nil => rfl
  | cons p rest ih =>
    obtain ⟨k0, v⟩ := p
    have hk0 : k ≠ k0 := fun he => (h (k0, v) (List.mem_cons_self _ _)) he.symm
    simp only [mapLookup]
    rw [ih (fun q hq => h q (List.mem_cons_of_mem _ hq))]
    simp [hk0]

theorem loadLevelsGo_get (wl : WorldLayout) (ls : List Level) :
    ∀ (i : Nat) (es : InsertList (Int × Int) LdtkLevel),
      loadLevelsGo wl i ls = some es →
      es.length = ls.length ∧
      ∀ j (hj : j < ls.length), ∃ c, convert_level (ls.get ⟨j, hj⟩) = some c ∧
        es[j]? = some (levelKey wl (i + j) (ls.get ⟨j, hj⟩), c) := by
  induction ls with
  | nil =>
    intro i es h
    obtain rfl := Option.some.inj h
    exact ⟨rfl, fun j hj => absurd hj (Nat.not_lt_zero j)⟩
  | cons l ls ih =>
    intro i es h
    simp only [loadLevelsGo] at h
    cases hc : convert_level l with
    | none => rw [hc] at h; cases h
    | some c =>
      cases hrest : loadLevelsGo wl (i + 1) ls with
      | none => rw [hc, hrest] at h; cases h
      | some rest =>
        rw [hc, hrest] at h
        obtain rfl := Option.some.inj h
        obtain ⟨hlen, hget⟩ := ih (i + 1) rest hrest
        refine ⟨by simp [hlen], fun j hj => ?_⟩
        cases j with
        | zero => exact ⟨c, hc, by simp⟩
        | succ j =>
          obtain ⟨c2, hc2, hes2⟩ := hget j (Nat.lt_of_succ_lt_succ hj)
          refine ⟨c2, by simpa using hc2, ?_⟩
          rw [List.getElem?_cons_succ, hes2]
          have harith : i + 1 + j = i + (j + 1) := by omega
          simp [harith]

theorem loadLevelsGo_lookup_linear (wl : WorldLayout) (f : Nat → Int × Int)
    (hkey : ∀ (i : Nat) (l : Level), levelKey wl i l = f i)
    (hinj : ∀ m n, f m = f n → m = n) (ls : List Level) :
    ∀ (i : Nat) (es : InsertList (Int × Int) LdtkLevel),
      loadLevelsGo wl i ls = some es →
      (∀ p ∈ es, ∃ m, i ≤ m ∧ p.1 = f m) ∧
      ∀ j (hj : j < ls.length),
        mapLookup es (f (i + j)) = convert_level (ls.get ⟨j, hj⟩) := by
  induction ls with
  | nil =>
    intro i es h
    obtain rfl := Option.some.inj h
    exact ⟨fun p hp => absurd hp (List.not_mem_nil p),
      fun j hj => absurd hj (Nat.not_lt_zero j)⟩
  | cons l ls ih =>
    intro i es h
    simp only [loadLevelsGo] at h
    cases hc : convert_level l with
    | none => rw [hc] at h; cases h
    | some c =>
      cases hrest : loadLevelsGo wl (i + 1) ls with
      | none => rw [hc, hrest] at h; cases h
      | some rest =>
        rw [hc, hrest] at h
        obtain rfl := Option.some.inj h
        obtain ⟨hkeys, hlook⟩ := ih (i + 1) rest hrest
        constructor
        · intro p hp
          rcases List.mem_cons.mp hp with rfl | hp2
          · exact ⟨i, Nat.le_refl i, by rw [hkey i l]⟩
          · obtain ⟨m, hm, hpm⟩ := hkeys p hp2
            exact ⟨m, by omega, hpm⟩
        · intro j hj
          cases j with
          | zero =>
            have hnone : mapLookup rest (f (i + 0)) = none := by
              apply mapLookup_eq_none
              intro p hp
              obtain ⟨m, hm, hpm⟩ := hkeys p hp
              rw [hpm]
              intro hfe
              have := hinj m (i + 0) hfe
              omega
            simp only [mapLookup, hkey i l, hnone]
            simp [hc]
          | succ j =>
            obtain ⟨c2, hc2, -⟩ :=
              (loadLevelsGo_get wl ls (i + 1) rest hrest).2 j (Nat.lt_of_succ_lt_succ hj)
            have hmr : mapLookup rest (f (i + (j + 1))) = some c2 := by
              have harith : i + (j + 1) = i + 1 + j := by omega
              rw [harith, hlook j (Nat.lt_of_succ_lt_succ hj), hc2]
            simp only [mapLookup, hmr]
            simpa using hc2.symm

/-- C2: for a successfully loaded document, with layout LinearHorizontal
the i-th level in document order is stored in the levels mapping under
coordinate (i, 0); with LinearVertical under (0, i); with Free or
GridVania the i-th insertion into the mapping is the level's conversion
keyed by its declared (world_x, world_y) verbatim. -/
theorem C2_level_coordinates (json : LdtkJson) (textures : List String) (res : LdtkResources)
    (hok : load_project json textures = .ok res) (i : Nat) (hi : i < json.levels.length) :
    (json.world_layout = some .LinearHorizontal →
      mapLookup res.levels ((i : Int), 0) = convert_level (json.levels.get ⟨i, hi⟩))
    ∧ (json.world_layout = some .LinearVertical →
      mapLookup res.levels (0, (i : Int)) = convert_level (json.levels.get ⟨i, hi⟩))
    ∧ ((json.world_layout = some .Free ∨ json.world_layout = some .GridVania) →
      ∃ c, convert_level (json.levels.get ⟨i, hi⟩) = some c ∧
        res.levels[i]? = some
          (((json.levels.get ⟨i, hi⟩).world_x, (json.levels.get ⟨i, hi⟩).world_y), c)) := by
  obtain ⟨ts, lds, wl, es, hts, hld, hwl, hes, rfl⟩ := load_project_ok_inv json textures res hok
  refine ⟨?_, ?_, ?_⟩
  · intro hlh
    rw [hwl] at hlh
    obtain rfl := Option.some.inj hlh
    have hlin := (loadLevelsGo_lookup_linear .LinearHorizontal (fun m => ((m : Int), 0))
      (fun _ _ => rfl) (fun m n hmn => by simpa using congrArg Prod.fst hmn)
      json.levels 0 es hes).2 i hi
    simpa using hlin
  · intro hlv
    rw [hwl] at hlv
    obtain rfl := Option.some.inj hlv
    have hlin := (loadLevelsGo_lookup_linear .LinearVertical (fun m => (0, (m : Int)))
      (fun _ _ => rfl) (fun m n hmn => by simpa using congrArg Prod.snd hmn)
      json.levels 0 es hes).2 i hi
    simpa using hlin
  · intro hfree
    obtain ⟨c, hc, hes2⟩ := (loadLevelsGo_get wl json.levels 0 es hes).2 i hi
    refine ⟨c, hc, ?_⟩
    have hkeyeq : levelKey wl (0 + i) (json.levels.get ⟨i, hi⟩) =
        ((json.levels.get ⟨i, hi⟩).world_x, (json.levels.get ⟨i, hi⟩).world_y) := by
      rcases hfree with hf | hf <;> rw [hwl] at hf <;> obtain rfl := Option.some.inj hf <;> rfl
    rw [hes2, hkeyeq]

/-- A level declaring world coordinates (7, 8). -/
def cLvlA : Level :=
  { world_x := 7, world_y := 8, px_wid := 10, px_hei := 10, layer_instances := some [] }

/-- A level declaring world coordinates (9, 3). -/
def cLvlB : Level :=
  { world_x := 9, world_y := 3, px_wid := 20, px_hei := 20, layer_instances := some [] }

/-- A LinearHorizontal document with two levels. -/
def cJsonC2 : LdtkJson :=
  { defs := { tilesets := [], layers := [] }
    levels := [cLvlA, cLvlB]
    world_layout := some .LinearHorizontal }

/-- The resources produced by loading `cJsonC2`. -/
def cResC2 : LdtkResources :=
  { levels := [((0, 0), { width := 10, height := 10, layers := [] }),
               ((1, 0), { width := 20, height := 20, layers := [] })]
    tilesets := []
    layer_defs := [] }

theorem C2_level_coordinates_witness :
    load_project cJsonC2 [] = .ok cResC2 ∧ 1 < cJsonC2.levels.length ∧
    mapLookup cResC2.levels ((1 : Int), 0) = convert_level (cJsonC2.levels.get ⟨1, by decide⟩) :=
  ⟨by decide, by decide,
    (C2_level_coordinates cJsonC2 [] cResC2 (by decide) 1 (by decide)).1 rfl⟩

theorem loadLevelsGo_convert_mem (wl : WorldLayout) (ls : List Level) :
    ∀ (i : Nat) (es : InsertList (Int × Int) LdtkLevel),
      loadLevelsGo wl i ls = some es → ∀ l ∈ ls, ∃ c, convert_level l = some c := by
  induction ls with
  | nil => intro i es h l hl; cases hl
  | cons a as ih =>
    intro i es h l hl
    simp only [loadLevelsGo] at h
    cases hc : convert_level a with
    | none => rw [hc] at h; cases h
    | some c =>
      cases hrest : loadLevelsGo wl (i + 1) as with
      | none => rw [hc, hrest] at h; cases h
      | some rest =>
        rcases List.mem_cons.mp hl with rfl | hl2
        · exact ⟨c, hc⟩
        · exact ih (i + 1) rest hrest l hl2

/-- The last level in document order that declares the given world
coordinates (transcribes the claim's "the last such level in document
order"). -/
def lastLevelAt (lvls : List Level) (c : Int × Int) : Option Level :=
  lvls.reverse.find? (fun l => decide ((l.world_x, l.world_y) = c))

theorem loadLevelsGo_lookup_free (wl : WorldLayout)
    (hwl : wl = .Free ∨ wl = .GridVania) (ls : List Level) :
    ∀ (i : Nat) (es : InsertList (Int × Int) LdtkLevel),
      loadLevelsGo wl i ls = some es →
      ∀ c : Int × Int, mapLookup es c = (lastLevelAt ls c).bind convert_level := by
  induction ls with
  | nil =>
    intro i es h c
    obtain rfl := Option.some.inj h
    rfl
  | cons l ls ih =>
    intro i es h c
    simp only [loadLevelsGo] at h
    cases hc : convert_level l with
    | none => rw [hc] at h; cases h
    | some cv =>
      cases hrest : loadLevelsGo wl (i + 1) ls with
      | none => rw [hc, hrest] at h; cases h
      | some rest =>
        rw [hc, hrest] at h
        obtain rfl := Option.some.inj h
        have hkey : levelKey wl i l = (l.world_x, l.world_y) := by
          rcases hwl with rfl | rfl <;> rfl
        have iha := ih (i + 1) rest hrest c
        simp only [mapLookup, hkey]
        unfold lastLevelAt
        rw [List.reverse_cons, List.find?_append]
        cases hfind : List.find? (fun l2 => decide ((l2.world_x, l2.world_y) = c)) ls.reverse with
        | some l2 =>
          obtain ⟨c2, hc2⟩ : ∃ c2, convert_level l2 = some c2 :=
            loadLevelsGo_convert_mem wl ls (i + 1) rest hrest l2
              (List.mem_reverse.mp (List.mem_of_find?_eq_some hfind))
          have hrl : mapLookup rest c = some c2 := by
            rw [iha]
            unfold lastLevelAt
            rw [hfind]
            simpa using hc2
          rw [hrl]
          simp [hc2]
        | none =>
          have hrl : mapLookup rest c = none := by
            rw [iha]
            unfold lastLevelAt
            rw [hfind]
            rfl
          rw [hrl]
          by_cases hceq : c = (l.world_x, l.world_y)
          · simp [List.find?, hceq, hc]
          · have hne : ¬ (l.world_x, l.world_y) = c := fun he => hceq he.symm
            simp [List.find?, hne, hceq]

/-- A Free-layout document with two levels declaring the same world
coordinates and an unrecognized layer-definition type. -/
def cJsonC10bad : LdtkJson :=
  { defs := { tilesets := [], layers := [cDefFoo] }
    levels :=
      [{ world_x := 0, world_y := 0, px_wid := 1, px_hei := 1, layer_instances := some [] },
       { world_x := 0, world_y := 0, px_wid := 2, px_hei := 2, layer_instances := some [] }]
    world_layout := some .Free }

/-- C10 counterexample: a Free-layout document in which two levels declare
the same (world_x, world_y) does not necessarily load successfully — this
one fails with an unknown-layer-type error, so the claim's unconditional
"load_project succeeds without error" is false. -/
theorem C10_counterexample :
    cJsonC10bad.world_layout = some .Free ∧
    cJsonC10bad.levels.length = 2 ∧
    (cJsonC10bad.levels.get ⟨0, by decide⟩).world_x =
      (cJsonC10bad.levels.get ⟨1, by decide⟩).world_x ∧
    (cJsonC10bad.levels.get ⟨0, by decide⟩).world_y =
      (cJsonC10bad.levels.get ⟨1, by decide⟩).world_y ∧
    load_project cJsonC10bad [] = .err (.LayerTypeNotFound "Foo") := by decide

/-- C10 (amended): for a Free- or GridVania-layout document whose tilesets
resolve, whose layer definitions convert and whose levels convert,
`load_project` succeeds — duplicate (world_x, world_y) declarations never
cause a failure — and the levels mapping contains, at every coordinate,
the conversion of the last level in document order declaring it (earlier
ones are silently overwritten). -/
theorem C10_duplicate_coords (json : LdtkJson) (textures : List String)
    (ts : InsertList String LdtkTileset) (lds : InsertList String LdtkLayerDef)
    (es : InsertList (Int × Int) LdtkLevel) (wl : WorldLayout)
    (hts : load_tilesets textures json.defs.tilesets = some ts)
    (hld : load_layer_defs json.defs.layers = .ok lds)
    (hwl : json.world_layout = some wl)
    (hfree : wl = .Free ∨ wl = .GridVania)
    (hes : loadLevelsGo wl 0 json.levels = some es) :
    load_project json textures = .ok { levels := es, tilesets := ts, layer_defs := lds } ∧
    ∀ c : Int × Int, mapLookup es c = (lastLevelAt json.levels c).bind convert_level :=
  ⟨by simp [load_project, hts, hld, hwl, hes],
    fun c => loadLevelsGo_lookup_free wl hfree json.levels 0 es hes c⟩

/-- A Free-layout document with two levels declaring the same world
coordinates (5, 6) and different pixel sizes. -/
def cJsonC10 : LdtkJson :=
  { defs := { tilesets := [], layers := [] }
    levels :=
      [{ world_x := 5, world_y := 6, px_wid := 11, px_hei := 11, layer_instances := some [] },
       { world_x := 5, world_y := 6, px_wid := 22, px_hei := 22, layer_instances := some [] }]
    world_layout := some .Free }

/-- The level-insertion list produced by loading `cJsonC10`. -/
def cEsC10 : InsertList (Int × Int) LdtkLevel :=
  [((5, 6), { width := 11, height := 11, layers := [] }),
   ((5, 6), { width := 22, height := 22, layers := [] })]

theorem C10_duplicate_coords_witness :
    load_project cJsonC10 [] = .ok { levels := cEsC10, tilesets := [], layer_defs := [] } ∧
    mapLookup cEsC10 ((5 : Int), (6 : Int)) =
      (lastLevelAt cJsonC10.levels ((5 : Int), (6 : Int))).bind convert_level :=
  have h := C10_duplicate_coords cJsonC10 [] [] [] cEsC10 .Free rfl rfl rfl (Or.inl rfl)
    (by decide)
  ⟨h.1, h.2 (5, 6)⟩

theorem findIdx?_found_prop {α : Type} (p : α → Bool) (l : List α) :
    ∀ (s i : Nat), List.findIdx? p l s = some i →
      s ≤ i ∧ ∀ a, l.get? (i - s) = some a → p a := by
  induction l with
  | nil => intro s i h; simp [List.findIdx?] at h
  | cons x xs ih =>
    intro s i h
    rw [List.findIdx?_cons] at h
    by_cases hp : p x
    · rw [if_pos hp] at h
      obtain rfl := Option.some.inj h
      refine ⟨Nat.le_refl s, fun a ha => ?_⟩
      rw [Nat.sub_self] at ha
      obtain rfl := Option.some.inj ha
      exact hp
    · rw [if_neg hp] at h
      obtain ⟨hsi, hprop⟩ := ih (s + 1) i h
      refine ⟨by omega, fun a ha => ?_⟩
      have hsk : i - s = (i - (s + 1)) + 1 := by omega
      rw [hsk, List.get?_cons_succ] at ha
      exact hprop a ha

theorem convert_tileset_eq (textures : List String) (t : TilesetDefinition)
    (rp : String) (tex_i : Nat) (name : String)
    (hrp : t.rel_path = some rp)
    (hidx : textures.findIdx? (fun n => n = rp) = some tex_i)
    (hget : textures[tex_i]? = some name) :
    convert_tileset textures t = some (name,
      { texture_index := tex_i
        grid_height := t.c_hei
        grid_width := t.c_wid
        padding := t.padding
        spacing := t.spacing
        tile_grid_size := t.tile_grid_size
        identifier := t.identifier
        uid := t.uid }) := by
  simp [convert_tileset, hrp, hidx, hget]

theorem convert_tileset_key (textures : List String) (t : TilesetDefinition) (key : String)
    (v : LdtkTileset) (h : convert_tileset textures t = some (key, v)) :
    t.rel_path = some key := by
  cases hrp : t.rel_path with
  | none => simp [convert_tileset, hrp] at h
  | some rp =>
    cases hidx : textures.findIdx? (fun name => name = rp) with
    | none => simp [convert_tileset, hrp, hidx] at h
    | some tex_i =>
      cases hget : textures[tex_i]? with
      | none => simp [convert_tileset, hrp, hidx, hget] at h
      | some name =>
        have hchar := convert_tileset_eq textures t rp tex_i name hrp hidx hget
        rw [hchar] at h
        have hpair := Option.some.inj h
        have hname : name = key := congrArg Prod.fst hpair
        have hnr : name = rp := by
          simpa using (findIdx?_found_prop (fun n => n = rp) textures 0 tex_i hidx).2 name
            (by simpa using hget)
        rw [← hnr, hname]

theorem load_tilesets_keys (textures : List String) (tds : List TilesetDefinition) :
    ∀ m, load_tilesets textures tds = some m →
      ∀ t ∈ tds, ∀ rp, t.rel_path = some rp → ∃ q ∈ m, q.1 = rp := by
  induction tds with
  | nil => intro m h t ht; cases ht
  | cons a as ih =>
    intro m h t ht rp hrp
    simp only [load_tilesets] at h
    cases hca : convert_tileset textures a with
    | none => rw [hca] at h; cases h
    | some e =>
      cases hrest : load_tilesets textures as with
      | none => rw [hca, hrest] at h; cases h
      | some rest =>
        rw [hca, hrest] at h
        obtain rfl := Option.some.inj h
        rcases List.mem_cons.mp ht with rfl | ht2
        · obtain ⟨key, val⟩ := e
          have hkey := convert_tileset_key textures t key val hca
          rw [hrp] at hkey
          obtain rfl := Option.some.inj hkey
          exact ⟨(rp, val), List.mem_cons_self _ _, rfl⟩
        · obtain ⟨q, hq, hqk⟩ := ih rest hrest t ht2 rp hrp
          exact ⟨q, List.mem_cons_of_mem _ hq, hqk⟩

theorem load_layer_defs_keys (ls : List LayerDefinition) :
    ∀ lds, load_layer_defs ls = .ok lds →
      ∀ d ∈ ls, ∃ p ∈ lds, p.1 = d.identifier := by
  induction ls with
  | nil => intro lds h d hd; cases hd
  | cons a as ih =>
    intro lds h d hd
    simp only [load_layer_defs] at h
    cases hca : convert_layer_def a with
    | error e => rw [hca] at h; cases h
    | ok da =>
      cases hrest : load_layer_defs as with
      | error e => rw [hca, hrest] at h; cases h
      | ok rest =>
        rw [hca, hrest] at h
        obtain rfl := Except.ok.inj h
        rcases List.mem_cons.mp hd with rfl | hd2
        · exact ⟨(d.identifier, da), List.mem_cons_self _ _, rfl⟩
        · obtain ⟨p, hp, hpk⟩ := ih rest hrest d hd2
          exact ⟨p, List.mem_cons_of_mem _ hp, hpk⟩

theorem loadLevelsGo_mem_value (wl : WorldLayout) (ls : List Level) :
    ∀ (i : Nat) (es : InsertList (Int × Int) LdtkLevel),
      loadLevelsGo wl i ls = some es →
      ∀ p ∈ es, ∃ l ∈ ls, convert_level l = some p.2 := by
  induction ls with
  | nil =>
    intro i es h p hp
    obtain rfl := Option.some.inj h
    cases hp
  | cons a as ih =>
    intro i es h p hp
    simp only [loadLevelsGo] at h
    cases hc : convert_level a with
    | none => rw [hc] at h; cases h
    | some c =>
      cases hrest : loadLevelsGo wl (i + 1) as with
      | none => rw [hc, hrest] at h; cases h
      | some rest =>
        rw [hc, hrest] at h
        obtain rfl := Option.some.inj h
        rcases List.mem_cons.mp hp with rfl | hp2
        · exact ⟨a, List.mem_cons_self _ _, hc⟩
        · obtain ⟨l, hl, hcl⟩ := ih (i + 1) rest hrest p hp2
          exact ⟨l, List.mem_cons_of_mem _ hl, hcl⟩

theorem convert_level_inv (lvl : Level) (out : LdtkLevel) (h : convert_level lvl = some out) :
    ∃ lis, lvl.layer_instances = some lis ∧
      mapOption convert_layer_instance lis = some out.layers := by
  cases hli : lvl.layer_instances with
  | none => simp [convert_level, hli] at h
  | some lis =>
    cases hmo : mapOption convert_layer_instance lis with
    | none => simp [convert_level, hli, hmo] at h
    | some outs =>
      refine ⟨lis, rfl, ?_⟩
      rw [convert_level, hli] at h
      simp [hmo] at h
      subst h
      exact hmo

theorem convert_layer_instance_fields (li : LayerInstance) (out : LdtkLayerInstance)
    (h : convert_layer_instance li = some out) :
    out.layerdef_id = li.identifier ∧ out.tileset_id = li.tileset_rel_path := by
  unfold convert_layer_instance at h
  cases hts : mapOption convert_tile_instance
      (if li.grid_tiles.length > 0 then li.grid_tiles else li.auto_layer_tiles) with
  | none => simp [hts] at h
  | some tl =>
    cases hes : mapOption convert_entity_instance li.entity_instances with
    | none => simp [hts, hes] at h
    | some es2 =>
      simp only [hts, hes, Option.some_bind] at h
      obtain rfl := Option.some.inj h
      exact ⟨rfl, rfl⟩

theorem mapLookup_isSome_of_mem {K V : Type} [DecidableEq K] (m : InsertList K V) (k : K)
    (h : ∃ p ∈ m, p.1 = k) : (mapLookup m k).isSome := by
  induction m with
  | nil => obtain ⟨p, hp, -⟩ := h; cases hp
  | cons q rest ih =>
    obtain ⟨k0, v⟩ := q
    simp only [mapLookup]
    cases hr : mapLookup rest k with
    | some r => simp
    | none =>
      obtain ⟨p, hp, hpk⟩ := h
      rcases List.mem_cons.mp hp with rfl | hp2
      · obtain rfl := hpk
        simp
      · have hm := ih ⟨p, hp2, hpk⟩
        rw [hr] at hm
        cases hm

/-- The ghost layer instance: its identifier and tileset path resolve to
nothing. -/
def cGhostInst : LayerInstance :=
  { c_hei := 1
    c_wid := 1
    grid_size := 16
    identifier := "Ghost"
    tileset_rel_path := some "x"
    grid_tiles := []
    auto_layer_tiles := []
    entity_instances := []
    int_grid_csv := [] }

/-- A document whose only layer instance references a layer definition and
a tileset that the document does not declare. -/
def cJsonC8bad : LdtkJson :=
  { defs := { tilesets := [], layers := [] }
    levels := [{ world_x := 0, world_y := 0, px_wid := 16, px_hei := 16,
                 layer_instances := some [cGhostInst] }]
    world_layout := some .Free }

/-- The conversion of `cGhostInst`. -/
def cGhostLayer : LdtkLayerInstance :=
  { grid_height := 1
    grid_width := 1
    grid_size := 16
    layerdef_id := "Ghost"
    tileset_id := some "x"
    tiles := []
    entities := []
    int_grid_values := [] }

/-- The resources produced by loading `cJsonC8bad`. -/
def cResC8bad : LdtkResources :=
  { levels := [((0, 0), { width := 16, height := 16, layers := [cGhostLayer] })]
    tilesets := []
    layer_defs := [] }

/-- C8 counterexample: `load_project` performs no reference validation — it
returns resources whose only layer instance has a `layerdef_id` ("Ghost")
absent from the layer-definitions mapping and a `tileset_id` ("x") absent
from the tilesets mapping. -/
theorem C8_counterexample :
    load_project cJsonC8bad [] = .ok cResC8bad ∧
    ((0, 0), { width := 16, height := 16, layers := [cGhostLayer] }) ∈ cResC8bad.levels ∧
    cGhostLayer ∈ ({ width := 16, height := 16, layers := [cGhostLayer] } : LdtkLevel).layers ∧
    (mapLookup cResC8bad.layer_defs cGhostLayer.layerdef_id).isSome = false ∧
    cGhostLayer.tileset_id = some "x" ∧
    (mapLookup cResC8bad.tilesets "x").isSome = false := by decide

/-- C8 (amended): the invariant holds for every document whose layer
instances only reference declared layer-definition identifiers and
declared tileset paths: on such documents every layer instance of the
loaded resources resolves its `layerdef_id` in the layer-definitions
mapping and its non-null `tileset_id` in the tilesets mapping.
`load_project` itself never validates the references. -/
theorem C8_reference_resolution (json : LdtkJson) (textures : List String)
    (res : LdtkResources) (hok : load_project json textures = .ok res)
    (hrefs : ∀ lvl ∈ json.levels, ∀ lis, lvl.layer_instances = some lis →
      ∀ li ∈ lis, (∃ d ∈ json.defs.layers, d.identifier = li.identifier) ∧
        ∀ rp, li.tileset_rel_path = some rp →
          ∃ t2 ∈ json.defs.tilesets, t2.rel_path = some rp) :
    ∀ p ∈ res.levels, ∀ layer ∈ p.2.layers,
      (mapLookup res.layer_defs layer.layerdef_id).isSome ∧
      ∀ tid, layer.tileset_id = some tid → (mapLookup res.tilesets tid).isSome := by
  obtain ⟨ts, lds, wl, es, hts, hld, hwl, hes, rfl⟩ := load_project_ok_inv json textures res hok
  intro p hp layer hlayer
  obtain ⟨srcLvl, hsrc, hconv⟩ := loadLevelsGo_mem_value wl json.levels 0 es hes p hp
  obtain ⟨lis, hlis, hmo⟩ := convert_level_inv srcLvl p.2 hconv
  obtain ⟨li, hli, hcli⟩ := mapOption_mem convert_layer_instance lis p.2.layers hmo layer hlayer
  obtain ⟨hid, htid⟩ := convert_layer_instance_fields li layer hcli
  obtain ⟨hrefid, hreftid⟩ := hrefs srcLvl hsrc lis hlis li hli
  constructor
  · apply mapLookup_isSome_of_mem
    rw [hid]
    obtain ⟨d, hd, hdid⟩ := hrefid
    obtain ⟨q, hq, hqk⟩ := load_layer_defs_keys json.defs.layers lds hld d hd
    exact ⟨q, hq, by rw [hqk, hdid]⟩
  · intro tid htid2
    apply mapLookup_isSome_of_mem
    have hli2 : li.tileset_rel_path = some tid := by rw [← htid, htid2]
    obtain ⟨t2, ht2, ht2rp⟩ := hreftid tid hli2
    obtain ⟨q, hq, hqk⟩ := load_tilesets_keys textures json.defs.tilesets ts hts t2 ht2 tid ht2rp
    exact ⟨q, hq, hqk⟩

/-- A tileset definition whose path matches the caller's texture list. -/
def cTsDefC8 : TilesetDefinition :=
  { c_hei := 2, c_wid := 2, padding := 0, spacing := 0, tile_grid_size := 16,
    identifier := "TS", uid := 1, rel_path := some "tiles.png" }

/-- A layer definition named "Ground" of type Tiles. -/
def cLdDefC8 : LayerDefinition :=
  { identifier := "Ground", layer_definition_type := "Tiles",
    display_opacity := ⟨1⟩, grid_size := 16, uid := 2 }

/-- A document whose layer instance references the declared "Ground"
definition and the declared "tiles.png" tileset. -/
def cJsonC8 : LdtkJson :=
  { defs := { tilesets := [cTsDefC8], layers := [cLdDefC8] }
    levels := [{ world_x := 0, world_y := 0, px_wid := 16, px_hei := 16,
                 layer_instances := some [cLayerInstC6] }]
    world_layout := some .Free }

/-- The resources produced by loading `cJsonC8` with texture list
`["tiles.png"]`. -/
def cResC8 : LdtkResources :=
  { levels := [((0, 0), { width := 16, height := 16, layers := [cLayerOutC6] })]
    tilesets := [("tiles.png",
      { texture_index := 0, grid_height := 2, grid_width := 2, padding := 0,
        spacing := 0, tile_grid_size := 16, identifier := "TS", uid := 1 })]
    layer_defs := [("Ground",
      { layer_type := .Tiles, identifier := "Ground", opacity := ⟨1⟩,
        grid_size := 16, uid := 2 })] }

theorem C8_reference_resolution_witness :
    load_project cJsonC8 ["tiles.png"] = .ok cResC8 ∧
    (mapLookup cResC8.layer_defs cLayerOutC6.layerdef_id).isSome ∧
    ∀ tid, cLayerOutC6.tileset_id = some tid → (mapLookup cResC8.tilesets tid).isSome :=
  have h := C8_reference_resolution cJsonC8 ["tiles.png"] cResC8 (by decide)
    (by
      intro lvl hlvl lis hlis li hli
      rcases List.mem_cons.mp hlvl with rfl | h0
      · obtain rfl := Option.some.inj hlis
        rcases List.mem_cons.mp hli with rfl | h1
        · refine ⟨⟨cLdDefC8, List.mem_cons_self _ _, by decide⟩, ?_⟩
          intro rp hrp
          obtain rfl := Option.some.inj hrp
          exact ⟨cTsDefC8, List.mem_cons_self _ _, by decide⟩
        · cases h1
      · cases h0)
    ((0, 0), { width := 16, height := 16, layers := [cLayerOutC6] }) (by decide)
    cLayerOutC6 (by decide)
  ⟨by decide, h.1, h.2⟩
